import Mathlib

/-!
Verification of the IR graph builder (`jax2onnx/converter/onnx_builder.py`)
and the scatter-shape legalizer (`jax2onnx/plugins/jax/lax/scatter_utils.py`).

The Python code is shallowly embedded: each Python method becomes a Lean
function over an explicit `Builder` state; Python dicts become insertion
ordered association lists; ONNX protobuf objects are reduced to the fields
the code actually reads (names, shapes, dtypes).
-/

namespace OnnxBuilderModel

/-- A dimension as stored in the builder's shape tuples: a Python `int`
(a concrete value, `-1` meaning unknown), Python `None`, or a symbolic
dimension rendered as a string (`"B"`, a stringified `DimVar`, ...). -/
inductive BDim where
  | int (n : Int)
  | pnone
  | sym (s : String)
deriving DecidableEq, Repr, Inhabited

/-- `o in (-1, None)` test used by `_is_shape_more_specific`. -/
def dim_is_unknown_for_refinement : BDim → Bool
  | .int n => n == -1
  | .pnone => true
  | .sym _ => false

/-- `_is_shape_more_specific(old, new)`: `new` refines `old` if the ranks
differ, or some position moves from `-1`/`None` to anything else. -/
def is_shape_more_specific (old new : List BDim) : Bool :=
  if old.length ≠ new.length then true
  else (old.zip new).any (fun p =>
    dim_is_unknown_for_refinement p.1 && !dim_is_unknown_for_refinement p.2)

/-- The fields of an ONNX `ValueInfoProto` that the builder reads: the
tensor name plus the shape/dtype it was built from (`make_value_info`
stores the shape as dim_value/dim_param entries; we keep the tuple). -/
structure ValueInfo where
  name : String
  shape : List BDim
  dtype : Nat
deriving DecidableEq, Repr

/-- The fields of an ONNX `NodeProto` the builder reads.
`subgraphNodeInputs` flattens the inputs of nodes sitting inside
GRAPH/GRAPHS attributes (read only by `_filter_redundant_inputs`). -/
structure Node where
  name : String
  opType : String
  inputs : List String
  outputs : List String
  subgraphNodeInputs : List String
deriving DecidableEq, Repr

/-- An initializer tensor; only its name is consulted by the code paths
under verification. -/
structure Initializer where
  name : String
deriving DecidableEq, Repr

/-- A registered `FunctionProto`; `filter_unused_initializers` reads the
inputs of the nodes of every function body (flattened here). -/
structure FunctionDef where
  name : String
  nodeInputs : List String
deriving DecidableEq, Repr

/-- Python dict assignment `d[k] = v`: replace the binding in place if the
key exists, otherwise append. -/
def dictInsert (d : List (String × α)) (k : String) (v : α) : List (String × α) :=
  if d.any (fun p => p.1 == k) then
    d.map (fun p => if p.1 == k then (k, v) else p)
  else d ++ [(k, v)]

/-- Python dict lookup `d.get(k)`. -/
def dictLookup (d : List (String × α)) (k : String) : Option α :=
  (d.find? (fun p => p.1 == k)).map Prod.snd

/-- The mutable state of `OnnxBuilder`.  `symbolicShapes` stands for
`converter.symbolic_shapes` ([] when the converter is absent), and
`symbolicDimOrigins` for `converter.symbolic_dim_to_origin`, keyed by the
string form of the dimension. -/
structure Builder where
  nodes : List Node
  inputs : List ValueInfo
  outputs : List ValueInfo
  initializers : List Initializer
  valueInfo : List ValueInfo
  valueInfoMetadata : List (String × (List BDim × Nat))
  valueInfoMetadataWithOrigin : List (String × (List BDim × Nat × String))
  dtypeEnv : List (String × Nat)
  functions : List FunctionDef
  symbolicShapes : List (String × List BDim)
  symbolicDimOrigins : List (String × (String × Nat))
deriving DecidableEq, Repr

def emptyBuilder : Builder :=
  { nodes := [], inputs := [], outputs := [], initializers := [], valueInfo := []
  , valueInfoMetadata := [], valueInfoMetadataWithOrigin := [], dtypeEnv := []
  , functions := [], symbolicShapes := [], symbolicDimOrigins := [] }

/-- String form of a dimension, as used for the origin-table keys. -/
def bdimStr : BDim → String
  | .int n => toString n
  | .pnone => "None"
  | .sym s => s

/-- `_register_symbol_origin` applied to every non-`int` dimension of a
shape (the loops at the end of `add_input` / `add_output` /
`add_value_info`); registration is last-write-wins on the string key. -/
def symbolOriginsAfter (origins : List (String × (String × Nat)))
    (tensorName : String) (shape : List BDim) : List (String × (String × Nat)) :=
  (shape.enum).foldl (fun acc p =>
    match p.2 with
    | .int _ => acc
    | d => dictInsert acc (bdimStr d) (tensorName, p.1)) origins

def register_symbol_origins (b : Builder) (tensorName : String)
    (shape : List BDim) : Builder :=
  { b with symbolicDimOrigins := symbolOriginsAfter b.symbolicDimOrigins tensorName shape }

/-- `make_value_info`: a `None` shape becomes the empty tuple; the dtype is
modelled directly as the ONNX enum the proto ends up with. -/
def make_value_info (name : String) (shape : Option (List BDim)) (dtype : Nat) :
    ValueInfo :=
  { name := name, shape := shape.getD [], dtype := dtype }

/-- `register_value_info_metadata`.  In the source the
`converter.symbolic_shapes` lookup only rebinds the local variable
`shape` (and feeds logging); the stored entry is always `shape_tuple`,
so the store is unconditionally overwritten with the argument shape. -/
def register_value_info_metadata (b : Builder) (name : String)
    (shape : Option (List BDim)) (dtype : Nat) (origin : Option String) : Builder :=
  let shapeTuple := shape.getD []
  { b with
    valueInfoMetadata := dictInsert b.valueInfoMetadata name (shapeTuple, dtype),
    valueInfoMetadataWithOrigin := dictInsert b.valueInfoMetadataWithOrigin name
      (shapeTuple, dtype, origin.getD "traced") }

/-- `add_value_info`: applies the `converter.symbolic_shapes` override,
appends a `ValueInfoProto`, registers metadata and symbol origins. -/
def add_value_info (b : Builder) (name : String) (shape : Option (List BDim))
    (dtype : Nat) : Builder :=
  let shapeTuple0 := shape.getD []
  let shapeTuple := (dictLookup b.symbolicShapes name).getD shapeTuple0
  let vi := make_value_info name (some shapeTuple) dtype
  let b1 := { b with valueInfo := b.valueInfo ++ [vi] }
  let b2 := register_value_info_metadata b1 name (some shapeTuple) dtype none
  register_symbol_origins b2 name shapeTuple

/-- `add_input`: not promoted to a formal graph input when the name is
already produced by a node (then only value-info is recorded) or is
already an input (then the call returns immediately). -/
def add_input (b : Builder) (name : String) (shape : Option (List BDim))
    (dtype : Nat) : Builder :=
  if b.nodes.any (fun n => n.outputs.contains name) then
    add_value_info b name shape dtype
  else if b.inputs.any (fun vi => vi.name == name) then
    b
  else
    let b1 := { b with dtypeEnv := dictInsert b.dtypeEnv name dtype }
    let b2 := { b1 with inputs := b1.inputs ++ [make_value_info name shape dtype] }
    match shape with
    | none => b2
    | some shp => register_symbol_origins b2 name shp

/-- `add_output`: never emits the same graph output twice. -/
def add_output (b : Builder) (name : String) (shape : Option (List BDim))
    (dtype : Nat) : Builder :=
  if b.outputs.any (fun vi => vi.name == name) then
    b
  else
    let b1 := { b with dtypeEnv := dictInsert b.dtypeEnv name dtype }
    let b2 := { b1 with outputs := b1.outputs ++ [make_value_info name shape dtype] }
    match shape with
    | none => b2
    | some shp => register_symbol_origins b2 name shp

/-- `add_scalar_input`: unconditionally appends a scalar formal input and
registers `call_parameter` metadata — no duplicate check of any kind. -/
def add_scalar_input (b : Builder) (name : String) (dtype : Nat) : Builder :=
  let vi := make_value_info name (some []) dtype
  let b1 := { b with inputs := b.inputs ++ [vi] }
  register_value_info_metadata b1 name (some []) dtype (some "call_parameter")

/-- ONNX `TensorProto.BOOL`. -/
def tensorProtoBool : Nat := 9

/-- Insertion sort on strings, modelling Python's `sorted` (ascending). -/
def insertSorted (x : String) : List String → List String
  | [] => [x]
  | y :: ys => if x < y then x :: y :: ys else y :: insertSorted x ys

def sortStrings : List String → List String
  | [] => []
  | x :: xs => insertSorted x (sortStrings xs)

/-- The names known to `find_missing_value_info`: inputs, outputs,
value-info entries and initializers. -/
def knownNames (b : Builder) : List String :=
  (b.inputs ++ b.outputs ++ b.valueInfo).map (fun vi => vi.name)
    ++ b.initializers.map (fun i => i.name)

/-- The set of names referenced by node inputs/outputs (Python builds a
set; we keep the distinct names). -/
def nodeReferencedNames (b : Builder) : List String :=
  (b.nodes.flatMap (fun n => n.inputs ++ n.outputs)).eraseDups

/-- `find_missing_value_info`: sorted list of node-referenced names with
no value-info entry. -/
def find_missing_value_info (b : Builder) : List String :=
  sortStrings ((nodeReferencedNames b).filter (fun nm => !(knownNames b).contains nm))

/-- Python `str.startswith`, on the character lists (kernel-computable). -/
def strStartsWith (s pre : String) : Bool := pre.data.isPrefixOf s.data

/-- Python `str.endswith`, on the character lists (kernel-computable). -/
def strEndsWith (s suf : String) : Bool := suf.data.isSuffixOf s.data

/-- The `name.endswith("_deterministic") or name == "deterministic"` test. -/
def isDeterministicFlagName (nm : String) : Bool :=
  strEndsWith nm "_deterministic" || nm == "deterministic"

/-- `_register_deterministic_parameters`: auto-registers scalar boolean
metadata + value-info for deterministic flags, returns the remaining
missing names (in order). -/
def register_deterministic_parameters (b : Builder) (missing : List String) :
    Builder × List String :=
  missing.foldl (fun acc nm =>
    if isDeterministicFlagName nm then
      let b1 := register_value_info_metadata acc.1 nm (some []) tensorProtoBool
        (some "auto-registered deterministic flag")
      let b2 := add_value_info b1 nm (some []) tensorProtoBool
      (b2, acc.2)
    else (acc.1, acc.2 ++ [nm])) (b, [])

/-- `filter_unused_initializers`: drop initializers whose name is not an
input of any node (function bodies included). -/
def filter_unused_initializers (b : Builder) : Builder :=
  let usedInputs := b.nodes.flatMap (fun n => n.inputs)
    ++ b.functions.flatMap (fun f => f.nodeInputs)
  { b with initializers := b.initializers.filter (fun i => usedInputs.contains i.name) }

/-- `_filter_redundant_inputs`: keep a declared input only if it is
consumed by a node (subgraph nodes included) or is a graph output, and it
is neither produced by a node nor shadowing an initializer. -/
def filter_redundant_inputs (b : Builder) : Builder :=
  let nodeIn := b.nodes.flatMap (fun n =>
    n.inputs.filter (fun t => t ≠ "") ++ n.subgraphNodeInputs.filter (fun t => t ≠ ""))
  let nodeOut := b.nodes.flatMap (fun n => n.outputs.filter (fun t => t ≠ ""))
  let inits := b.initializers.map (fun i => i.name)
  let gOuts := b.outputs.map (fun vi => vi.name)
  { b with inputs := b.inputs.filter (fun vi =>
      (nodeIn.contains vi.name || gOuts.contains vi.name)
      && !nodeOut.contains vi.name && !inits.contains vi.name) }

/-- Payload of the `RuntimeError` raised by `_assert_topologically_sorted`:
the offending node's name, op type, and the unavailable input. -/
structure TopoError where
  nodeName : String
  opType : String
  input : String
deriving DecidableEq, Repr

/-- First input of `n` that is non-empty and not yet available. -/
def findBadInput (avail : List String) (n : Node) : Option String :=
  n.inputs.find? (fun inp => inp ≠ "" && !avail.contains inp)

/-- `_assert_topologically_sorted`'s walk over the node list, threading the
set of available names; `none` means the assertion passes. -/
def assert_topologically_sorted (avail : List String) : List Node → Option TopoError
  | [] => none
  | n :: rest =>
    match findBadInput avail n with
    | some inp => some { nodeName := n.name, opType := n.opType, input := inp }
    | none => assert_topologically_sorted (avail ++ n.outputs) rest

/-- The sealed graph produced by `_build_graph`. -/
structure Graph where
  nodes : List Node
  name : String
  inputs : List ValueInfo
  outputs : List ValueInfo
  initializers : List Initializer
  valueInfo : List ValueInfo
deriving DecidableEq, Repr

/-- Fatal errors raised by `_build_graph`. -/
inductive BuildError where
  | notTopologicallySorted (nodeName opType input : String)
  | missingValueInfo (missing : List String) (graphName : String)
deriving DecidableEq, Repr

/-- `_build_graph` on the top-level path (`is_subgraph = False`,
`empty_inputs = False`): filter unused initializers, assert topological
order, filter redundant inputs, then diff the referenced names against
the known ones — auto-registering deterministic flags and silently
dropping `conv_transpose_out*` names — and fail on anything left.
(The source's `if missing:` guards are no-ops on empty lists and are
folded away here.) -/
def build_graph_after_topo (b2 : Builder) (gname : String) : Except BuildError Graph :=
  let missing0 := find_missing_value_info b2
  let det := register_deterministic_parameters b2 missing0
  let b3 := det.1
  let missing := det.2.filter (fun m => !strStartsWith m "conv_transpose_out")
  if missing.isEmpty then
    .ok { nodes := b3.nodes, name := gname, inputs := b3.inputs,
          outputs := b3.outputs, initializers := b3.initializers,
          valueInfo := b3.valueInfo }
  else .error (.missingValueInfo missing gname)

def build_graph (b : Builder) (gname : String) : Except BuildError Graph :=
  let b1 := filter_unused_initializers b
  match assert_topologically_sorted
      (b1.inputs.map (fun vi => vi.name) ++ b1.initializers.map (fun i => i.name))
      b1.nodes with
  | some e => .error (.notTopologicallySorted e.nodeName e.opType e.input)
  | none => build_graph_after_topo (filter_redundant_inputs b1) gname

/-- Outputs of the nodes strictly before position `i`. -/
def outputsBefore (nodes : List Node) (i : Nat) : List String :=
  (nodes.take i).flatMap (fun n => n.outputs)

/-- Spec-side statement of topological soundness, following the spec's
words: walking the stored node list in order, every non-empty input of
every node is a declared input, an initializer, or an earlier node's
output.  (Definition written from the spec, to be compared with the
code's `assert_topologically_sorted`.) -/
def specTopologicallySound (inputNames initNames : List String)
    (nodes : List Node) : Prop :=
  ∀ i, (h : i < nodes.length) → ∀ inp ∈ (nodes.get ⟨i, h⟩).inputs, inp ≠ "" →
    (inp ∈ inputNames ∨ inp ∈ initNames ∨ inp ∈ outputsBefore nodes i)

/-- A `declare_input` / `declare_output` call. -/
inductive DeclOp where
  | inp (name : String) (shape : Option (List BDim)) (dtype : Nat)
  | out (name : String) (shape : Option (List BDim)) (dtype : Nat)
deriving DecidableEq, Repr

def applyDecl (b : Builder) : DeclOp → Builder
  | .inp n s d => add_input b n s d
  | .out n s d => add_output b n s d

def applyDecls (b : Builder) (ops : List DeclOp) : Builder :=
  ops.foldl applyDecl b

end OnnxBuilderModel

namespace ScatterUtilsModel

/-- A JAX shape dimension as seen by `scatter_utils`: a concrete integer
(`int` / `np.integer`) or a symbolic dimension object.  `id` stands for
the Python object identity that `_are_dims_equal` compares with `is`. -/
inductive SDim where
  | c (n : Int)
  | s (id : Nat)
deriving DecidableEq, Repr, Inhabited

/-- `_is_dim_symbolic`: integers are concrete, everything else is
(treated as) symbolic. -/
def is_dim_symbolic : SDim → Bool
  | .c _ => false
  | .s _ => true

/-- `_are_dims_equal`: concrete dims compare by value, a symbolic dim is
never equal to a concrete one, and two symbolic dims compare by object
identity. -/
def are_dims_equal (d1 d2 : SDim) : Bool :=
  if !is_dim_symbolic d1 && !is_dim_symbolic d2 then
    match d1, d2 with
    | .c n1, .c n2 => n1 == n2
    | _, _ => false
  else if is_dim_symbolic d1 != is_dim_symbolic d2 then false
  else d1 == d2

/-- `_are_shapes_equal`: same length and pointwise `_are_dims_equal`. -/
def are_shapes_equal (s1 s2 : List SDim) : Bool :=
  if s1.length ≠ s2.length then false
  else (s1.zip s2).all (fun p => are_dims_equal p.1 p.2)

/-- Errors raised out of `_prepare_scatter_inputs_for_onnx` (ValueErrors
in the source), carried as structured payloads. -/
inductive ScatterError where
  /-- `_make_shape_concrete_for_prod` failure, carrying its context message. -/
  | unresolvedDim (context : String)
  /-- "Cannot create Reshape target for indices ... with multiple non-concrete dims". -/
  | cannotCreateReshapeTarget (context : String)
  /-- "Indices depth K must be non-negative." -/
  | negativeK
  /-- "Indices depth K cannot exceed operand rank". -/
  | kExceedsOperandRank (k opRank : Nat)
  /-- "Indices depth K must be concrete for updates shape calculation." -/
  | kMustBeConcrete
  /-- "Default path: Updates element count mismatch for ScatterND",
  reported with both shapes and the dimension numbers. -/
  | updatesMismatch (origShape expShape : List SDim)
      (sdod uwd iwd obd : List Nat)
  /-- "Default path: Could not prepare updates ... due to other ValueError",
  wrapping the inner error. -/
  | couldNotPrepareUpdates (inner : ScatterError)
deriving DecidableEq, Repr

/-- `_make_shape_concrete_for_prod`: concrete dims pass through; a
symbolic dim is resolved through the converter (modelled by `env`,
covering both `get_concrete_value_from_symbolic_dim` and the `Literal`
unwrap), and an unresolvable dim raises with the context message. -/
def make_shape_concrete_for_prod (env : Nat → Option Int) (shp : List SDim)
    (context : String) : Except ScatterError (List Int) :=
  match shp with
  | [] => .ok []
  | d :: ds =>
    match d with
    | .c n =>
      match make_shape_concrete_for_prod env ds context with
      | .ok rest => .ok (n :: rest)
      | .error e => .error e
    | .s i =>
      match env i with
      | some v =>
        match make_shape_concrete_for_prod env ds context with
        | .ok rest => .ok (v :: rest)
        | .error e => .error e
      | none => .error (.unresolvedDim context)

def prodInt (l : List Int) : Int := l.foldl (fun a b => a * b) 1

/-- The element count the default path computes: `np.prod` of the concrete
shape (1 for an empty shape), with any zero dimension forcing 0. -/
def elementCount (l : List Int) : Int :=
  let n : Int := if l.isEmpty then 1 else prodInt l
  if l.any (fun d => d == 0) then 0 else n

/-- The `scatter_dims_to_operand_dims` / `update_window_dims` /
`inserted_window_dims` / `operand_batching_dims` quadruple. -/
structure DimNums where
  sdod : List Nat
  uwd : List Nat
  iwd : List Nat
  obd : List Nat
deriving DecidableEq, Repr

/-- Target indices-shape inference (the case analysis on the current
indices shape vs. `K`).  All internal `ValueError`s of this block are
caught in the source (falling back to `-1` entries), so the result is
total. -/
def targetIndicesShape (env : Nat → Option Int) (cur : List SDim) (K : Nat) :
    List SDim :=
  if cur.isEmpty then
    [SDim.c 1, SDim.c (if 0 < K then (K : Int) else 0)]
  else if cur.length == 1 && decide (0 < K)
      && are_dims_equal (cur.headD (SDim.c 0)) (SDim.c (K : Int)) then
    [SDim.c 1, SDim.c (K : Int)]
  else if decide (0 < K) && decide (0 < cur.length)
      && are_dims_equal (cur.getLastD (SDim.c 0)) (SDim.c (K : Int)) then
    let batchDims := cur.dropLast
    if batchDims.isEmpty then [SDim.c 1, SDim.c (K : Int)]
    else
      match make_shape_concrete_for_prod env batchDims "indices_batch_prod_gen" with
      | .ok cs => [SDim.c (prodInt cs), SDim.c (K : Int)]
      | .error _ => [SDim.c (-1), SDim.c (K : Int)]
  else if K == 0 && cur.length == 1 then
    [cur.headD (SDim.c 0), SDim.c 0]
  else if cur.length == 2 && are_dims_equal (cur.getLastD (SDim.c 0)) (SDim.c (K : Int)) then
    cur
  else
    let commonN : Int :=
      if !cur.isEmpty then
        if decide (1 < cur.length)
            && are_dims_equal (cur.getLastD (SDim.c 0)) (SDim.c (K : Int)) then
          match make_shape_concrete_for_prod env cur.dropLast "commonN_prod_gen" with
          | .ok cs => prodInt cs
          | .error _ => -1
        else if cur.length == 1 && K == 0 then
          match make_shape_concrete_for_prod env (cur.take 1) "commonN_K0_gen" with
          | .ok cs => cs.headD (-1)
          | .error _ => -1
        else -1
      else 1
    [SDim.c commonN, SDim.c (K : Int)]

/-- The Reshape-target list construction shared by the indices and the
updates reshapes: concrete dims pass through, the first non-concrete dim
becomes `-1`, later non-concrete dims must resolve or the block raises. -/
def reshapeTargetList (env : Nat → Option Int) (context : String) :
    List SDim → Bool → Except ScatterError (List Int)
  | [], _ => .ok []
  | d :: ds, hasMinusOne =>
    match d with
    | .c n =>
      match reshapeTargetList env context ds hasMinusOne with
      | .ok rest => .ok (n :: rest)
      | .error e => .error e
    | .s i =>
      if !hasMinusOne then
        match reshapeTargetList env context ds true with
        | .ok rest => .ok ((-1) :: rest)
        | .error e => .error e
      else
        match env i with
        | some v =>
          match reshapeTargetList env context ds hasMinusOne with
          | .ok rest => .ok (v :: rest)
          | .error e => .error e
        | none => .error (.unresolvedDim context)

/-- The indices-reshape step: no node when the current shape already
equals the target; otherwise a Reshape node whose target list must be
constructible (a failure is re-raised as "Cannot create Reshape target").
Returns whether a Reshape was emitted. -/
def indicesReshapeStep (env : Nat → Option Int) (cur target : List SDim) :
    Except ScatterError Bool :=
  if are_shapes_equal cur target then .ok false
  else
    match reshapeTargetList env "reshape_target_indices_dim" target false with
    | .ok _ => .ok true
    | .error _ => .error (.cannotCreateReshapeTarget "indices")

/-- The expected ONNX updates shape on the default path: the leading dims
of the processed indices shape followed by `operand_shape[K:]`, with the
source's guards on `K`. -/
def expectedOnnxUpdatesShape (operandShape target : List SDim) :
    Except ScatterError (List SDim) :=
  let nDims := target.dropLast
  let kVal : SDim := if 0 < target.length then target.getLastD (SDim.c 0) else SDim.c 0
  match kVal with
  | .c k =>
    if k < 0 then .error .negativeK
    else if k.toNat ≤ operandShape.length then
      .ok (nDims ++ operandShape.drop k.toNat)
    else .error (.kExceedsOperandRank k.toNat operandShape.length)
  | .s _ => .error .kMustBeConcrete

/-- Detection of the batched-window ("depth-2 indices") fast path, on the
original (pre-cast) indices shape and the original updates shape. -/
def detectBatchedWindowFastPath (dn : DimNums)
    (operandShape updatesShape jaxIndicesShape : List SDim) : Bool :=
  let opRank := operandShape.length
  let updRank := updatesShape.length
  if dn.sdod.length == 1 && dn.uwd.length == updRank && opRank == updRank
      && dn.obd.isEmpty && dn.iwd.isEmpty
      && (jaxIndicesShape.isEmpty || are_shapes_equal jaxIndicesShape [SDim.c 1]) then
    let axis := dn.sdod.headD 0
    if axis < opRank then
      let shapesMatch : Bool :=
        if 0 < axis then
          let m0 := are_dims_equal (operandShape.headD (SDim.c 0))
            (updatesShape.headD (SDim.c 0))
          if m0 && decide (axis + 1 < opRank) then
            if axis < updatesShape.length then
              are_shapes_equal (operandShape.drop (axis + 1))
                (updatesShape.drop (axis + 1))
            else false
          else m0
        else
          if 1 < opRank then
            are_shapes_equal (operandShape.drop 1) (updatesShape.drop 1)
          else opRank == 1
      if shapesMatch && decide (0 < opRank) then decide (axis < updatesShape.length)
      else false
    else false
  else false

/-- Result of the fast path's index construction. -/
structure FastPathResult where
  bVal : Int
  lVal : Int
  indicesShape : List SDim
deriving DecidableEq, Repr

/-- The fast-path body: both the operand and the updates shape are made
concrete with no surrounding try/except, `B` is the operand's axis-0 size
and `L` the updates' size on the scattered axis; the synthesized index
tensor has shape `(B, L, 2)`. -/
def fastPathCompute (env : Nat → Option Int) (operandShape updatesShape : List SDim)
    (axis : Nat) : Except ScatterError FastPathResult :=
  match make_shape_concrete_for_prod env operandShape "d2_op_shape" with
  | .error e => .error e
  | .ok co =>
    match make_shape_concrete_for_prod env updatesShape "d2_upd_shape" with
    | .error e => .error e
    | .ok cu =>
      .ok { bVal := co.headD 0, lVal := cu.getD axis 0,
            indicesShape := [operandShape.headD (SDim.c 0),
                             updatesShape.getD axis (SDim.c 0), SDim.c 2] }

/-- What the default-path reconciliation did to the updates tensor. -/
inductive UpdatesAction where
  /-- shapes already equal: accepted, no node emitted. -/
  | asIs
  /-- both element counts zero: accepted, no node emitted. -/
  | emptyAccepted
  /-- a Squeeze node on this axis was emitted. -/
  | squeezed (axis : Nat)
  /-- a Reshape node with this target list was emitted. -/
  | reshaped (target : List Int)
deriving DecidableEq, Repr

/-- The squeeze detection: the original shape has exactly one more axis,
and removing some axis `i` whose entry is (Python-)equal to `1` yields the
expected shape.  (`dim == 1` on a symbolic dim is False here.) -/
def findSqueezeAxis (orig expected : List SDim) : Option Nat :=
  if orig.length == expected.length + 1 then
    (List.range orig.length).find? (fun i =>
      (orig.getD i (SDim.c 0)) == SDim.c 1
        && are_shapes_equal (orig.eraseIdx i) expected)
  else none

/-- The default-path updates reconciliation (the `else` branch after the
fast-path check): accept equal shapes as-is; otherwise make both shapes
concrete, compare element counts, and accept / squeeze / reshape / raise.
The source's `except ValueError` re-raises the element-count mismatch
unchanged (its message guard on "Cannot make shape concrete" never
matches the actual context messages) and wraps every other error. -/
def reconcileUpdatesDefault (env : Nat → Option Int) (orig expected : List SDim)
    (dn : DimNums) : Except ScatterError UpdatesAction :=
  if are_shapes_equal orig expected then .ok .asIs
  else
    let attempt : Except ScatterError UpdatesAction :=
      match make_shape_concrete_for_prod env orig "orig_updates_nelem_default" with
      | .error e => .error e
      | .ok co =>
        match make_shape_concrete_for_prod env expected "exp_updates_nelem_default" with
        | .error e => .error e
        | .ok ce =>
          if elementCount co == 0 && elementCount ce == 0 then .ok .emptyAccepted
          else if elementCount co == elementCount ce then
            match findSqueezeAxis orig expected with
            | some ax => .ok (.squeezed ax)
            | none =>
              match reshapeTargetList env "reshape_target_updates_dim_def" expected false with
              | .ok tgt => .ok (.reshaped tgt)
              | .error e => .error e
          else .error (.updatesMismatch orig expected dn.sdod dn.uwd dn.iwd dn.obd)
    match attempt with
    | .ok a => .ok a
    | .error e =>
      match e with
      | .updatesMismatch o x a1 a2 a3 a4 => .error (.updatesMismatch o x a1 a2 a3 a4)
      | other => .error (.couldNotPrepareUpdates other)

/-- The shape-level outcome of `_prepare_scatter_inputs_for_onnx`:
returning `.ok` corresponds to the function returning its three tensor
names. -/
structure ScatterResult where
  indicesShape : List SDim
  usedFastPath : Bool
  fastB : Int
  fastL : Int
  updatesAction : UpdatesAction
  indicesReshaped : Bool
deriving DecidableEq, Repr

/-- The shape-level skeleton of `_prepare_scatter_inputs_for_onnx`
(the int64 cast of the indices does not change any shape and is omitted):
infer the target indices shape, emit the indices reshape if needed,
compute the expected updates shape, then either run the batched-window
fast path or the default-path updates reconciliation. -/
def prepare_scatter_inputs_for_onnx (env : Nat → Option Int)
    (operandShape indicesShape updatesShape : List SDim) (dn : DimNums) :
    Except ScatterError ScatterResult :=
  let K := dn.sdod.length
  let target := targetIndicesShape env indicesShape K
  match indicesReshapeStep env indicesShape target with
  | .error e => .error e
  | .ok didReshape =>
    match expectedOnnxUpdatesShape operandShape target with
    | .error e => .error e
    | .ok expected =>
      if detectBatchedWindowFastPath dn operandShape updatesShape indicesShape then
        match fastPathCompute env operandShape updatesShape (dn.sdod.headD 0) with
        | .error e => .error e
        | .ok fr =>
          .ok { indicesShape := fr.indicesShape, usedFastPath := true,
                fastB := fr.bVal, fastL := fr.lVal,
                updatesAction := .asIs, indicesReshaped := didReshape }
      else
        match reconcileUpdatesDefault env updatesShape expected dn with
        | .error e => .error e
        | .ok act =>
          .ok { indicesShape := target, usedFastPath := false,
                fastB := 0, fastL := 0,
                updatesAction := act, indicesReshaped := didReshape }

end ScatterUtilsModel

namespace OnnxBuilderModel

theorem dictLookup_cons_eq {α : Type} (x : String × α) (l : List (String × α))
    (k : String) (h : (x.1 == k) = true) : dictLookup (x :: l) k = some x.2 := by
  simp [dictLookup, List.find?, h]

theorem dictLookup_cons_ne {α : Type} (x : String × α) (l : List (String × α))
    (k : String) (h : (x.1 == k) = false) : dictLookup (x :: l) k = dictLookup l k := by
  simp [dictLookup, List.find?, h]

theorem dictLookup_map_replace {α : Type} (d : List (String × α)) (k : String) (v : α)
    (h : d.any (fun p => p.1 == k) = true) :
    dictLookup (d.map (fun p => if p.1 == k then (k, v) else p)) k = some v := by
  induction d with
  | nil => simp at h
  | cons p ps ih =>
    simp only [List.map_cons]
    by_cases hp : (p.1 == k) = true
    · rw [if_pos hp, dictLookup_cons_eq _ _ _ (by simp)]
    · have hp' : (p.1 == k) = false := by simpa using hp
      have hps : ps.any (fun q => q.1 == k) = true := by
        simpa [List.any_cons, hp'] using h
      rw [if_neg (by simp [hp']), dictLookup_cons_ne _ _ _ hp']
      exact ih hps

theorem dictLookup_append_single {α : Type} (d : List (String × α)) (k : String) (v : α)
    (h : d.any (fun p => p.1 == k) = false) :
    dictLookup (d ++ [(k, v)]) k = some v := by
  induction d with
  | nil => simp [dictLookup, List.find?]
  | cons p ps ih =>
    rw [List.any_cons, Bool.or_eq_false_iff] at h
    simp only [List.cons_append]
    rw [dictLookup_cons_ne _ _ _ h.1]
    exact ih h.2

theorem dictLookup_insert_self {α : Type} (d : List (String × α)) (k : String) (v : α) :
    dictLookup (dictInsert d k v) k = some v := by
  unfold dictInsert
  by_cases h : d.any (fun p => p.1 == k) = true
  · rw [if_pos h]
    exact dictLookup_map_replace d k v h
  · have h' : d.any (fun p => p.1 == k) = false := Bool.eq_false_iff.mpr h
    rw [if_neg (by rw [h']; exact Bool.false_ne_true)]
    exact dictLookup_append_single d k v h'

/-- C3 (counterexample): registering shape `("B", 4)` and then shape
`(-1, 4)` for the same name leaves `(-1, 4)` in the metadata store, even
though the second shape is not more specific — the claimed monotonicity
(`("B", 4)` should survive) fails on the code, which never consults
`_is_shape_more_specific`. -/
theorem register_metadata_not_monotone_cex :
    dictLookup (register_value_info_metadata
        (register_value_info_metadata emptyBuilder "x"
          (some [BDim.sym "B", BDim.int 4]) 1 none)
        "x" (some [BDim.int (-1), BDim.int 4]) 1 none).valueInfoMetadata "x"
      = some ([BDim.int (-1), BDim.int 4], 1)
    ∧ is_shape_more_specific [BDim.sym "B", BDim.int 4]
        [BDim.int (-1), BDim.int 4] = false := by
  exact ⟨by decide, by decide⟩

/-- C3 (amended): `register_value_info_metadata` is last-write-wins — the
stored shape for a name is always the most recently registered shape
tuple, whether or not it is more specific and whether or not the rank
changed. -/
theorem register_metadata_last_write_wins (b : Builder) (name : String)
    (s1 s2 : Option (List BDim)) (d1 d2 : Nat) (o1 o2 : Option String) :
    dictLookup (register_value_info_metadata
        (register_value_info_metadata b name s1 d1 o1) name s2 d2 o2).valueInfoMetadata
        name
      = some (s2.getD [], d2) := by
  simp [register_value_info_metadata, dictLookup_insert_self]

/-- C10: `add_scalar_input` performs no duplicate check — each call
appends one more formal input with the given name (so two calls add two
entries), whereas a repeated `add_input` (`declare_input`) with the same
arguments never grows the input list. -/
theorem add_scalar_input_always_appends (b : Builder) (n : String)
    (d1 d2 : Nat) (sh : Option (List BDim)) (dt : Nat) :
    ((add_scalar_input (add_scalar_input b n d1) n d2).inputs.countP
        (fun vi => vi.name == n)
      = b.inputs.countP (fun vi => vi.name == n) + 2)
    ∧ ((add_input (add_input b n sh dt) n sh dt).inputs.countP
        (fun vi => vi.name == n)
      = (add_input b n sh dt).inputs.countP (fun vi => vi.name == n)) := by
  constructor
  · have e : ∀ (x : Builder) (dd : Nat),
        (add_scalar_input x n dd).inputs = x.inputs ++ [make_value_info n (some []) dd] :=
      fun _ _ => rfl
    rw [e, e, List.countP_append, List.countP_append]
    simp [make_value_info, List.countP_cons]
  · by_cases h1 : (b.nodes.any fun nd => nd.outputs.contains n) = true
    · have e1 : add_input b n sh dt = add_value_info b n sh dt := by
        unfold add_input
        rw [if_pos h1]
      have hav : ∀ (x : Builder), (add_value_info x n sh dt).nodes = x.nodes :=
        fun _ => rfl
      have hai : ∀ (x : Builder), (add_value_info x n sh dt).inputs = x.inputs :=
        fun _ => rfl
      rw [e1]
      have e2 : add_input (add_value_info b n sh dt) n sh dt
          = add_value_info (add_value_info b n sh dt) n sh dt := by
        unfold add_input
        rw [if_pos (by rw [hav]; exact h1)]
      rw [e2, hai]
    · have h1' : (b.nodes.any fun nd => nd.outputs.contains n) = false :=
        Bool.eq_false_iff.mpr h1
      by_cases h2 : (b.inputs.any fun vi => vi.name == n) = true
      · have e1 : add_input b n sh dt = b := by
          unfold add_input
          rw [if_neg (by rw [h1']; exact Bool.false_ne_true), if_pos h2]
        rw [e1, e1]
      · have h2' : (b.inputs.any fun vi => vi.name == n) = false :=
          Bool.eq_false_iff.mpr h2
        have hnodes : (add_input b n sh dt).nodes = b.nodes := by
          unfold add_input
          rw [if_neg (by rw [h1']; exact Bool.false_ne_true), if_neg (by rw [h2']; exact Bool.false_ne_true)]
          cases sh <;> rfl
        have hinputs : (add_input b n sh dt).inputs
            = b.inputs ++ [make_value_info n sh dt] := by
          unfold add_input
          rw [if_neg (by rw [h1']; exact Bool.false_ne_true), if_neg (by rw [h2']; exact Bool.false_ne_true)]
          cases sh <;> rfl
        have hmem : ((add_input b n sh dt).inputs.any fun vi => vi.name == n) = true := by
          rw [hinputs]
          simp [make_value_info]
        have e2 : add_input (add_input b n sh dt) n sh dt = add_input b n sh dt := by
          conv =>
            lhs
            rw [add_input]
          rw [if_neg (by rw [hnodes, h1']; exact Bool.false_ne_true), if_pos hmem]
        rw [e2]

theorem add_input_outputs (b : Builder) (n : String) (sh : Option (List BDim))
    (dt : Nat) : (add_input b n sh dt).outputs = b.outputs := by
  unfold add_input
  split
  · rfl
  · split
    · rfl
    · cases sh <;> rfl

theorem add_output_inputs (b : Builder) (n : String) (sh : Option (List BDim))
    (dt : Nat) : (add_output b n sh dt).inputs = b.inputs := by
  unfold add_output
  split
  · rfl
  · cases sh <;> rfl

theorem add_input_names_nodup (b : Builder) (n : String) (sh : Option (List BDim))
    (dt : Nat) (h : (b.inputs.map (fun vi => vi.name)).Nodup) :
    ((add_input b n sh dt).inputs.map (fun vi => vi.name)).Nodup := by
  unfold add_input
  split
  · exact h
  · split
    · exact h
    · rename_i h1 h2
      have hn : n ∉ b.inputs.map (fun vi => vi.name) := by
        intro hmem
        apply h2
        rw [List.any_eq_true]
        obtain ⟨vi, hvi, hname⟩ := List.mem_map.mp hmem
        exact ⟨vi, hvi, by simp [hname]⟩
      have key : ((b.inputs ++ [make_value_info n sh dt]).map
          (fun vi => vi.name)).Nodup := by
        rw [List.map_append]
        rw [List.nodup_append]
        refine ⟨h, List.nodup_singleton _, ?_⟩
        intro a ha hb
        simp [make_value_info] at hb
        rw [hb] at ha
        exact hn ha
      cases sh with
      | none => exact key
      | some shp => exact key

theorem add_output_names_nodup (b : Builder) (n : String) (sh : Option (List BDim))
    (dt : Nat) (h : (b.outputs.map (fun vi => vi.name)).Nodup) :
    ((add_output b n sh dt).outputs.map (fun vi => vi.name)).Nodup := by
  unfold add_output
  split
  · exact h
  · rename_i h2
    have hn : n ∉ b.outputs.map (fun vi => vi.name) := by
      intro hmem
      apply h2
      rw [List.any_eq_true]
      obtain ⟨vi, hvi, hname⟩ := List.mem_map.mp hmem
      exact ⟨vi, hvi, by simp [hname]⟩
    have key : ((b.outputs ++ [make_value_info n sh dt]).map
        (fun vi => vi.name)).Nodup := by
      rw [List.map_append]
      rw [List.nodup_append]
      refine ⟨h, List.nodup_singleton _, ?_⟩
      intro a ha hb
      simp [make_value_info] at hb
      rw [hb] at ha
      exact hn ha
    cases sh with
    | none => exact key
    | some shp => exact key

/-- C6: after any sequence of `declare_input` / `declare_output` calls on
a builder whose input/output name lists are duplicate-free, the input
list and the output list still contain every name at most once — a
second declaration of the same name is a no-op on the respective list. -/
theorem declare_input_output_idempotent (b : Builder) (ops : List DeclOp)
    (hin : (b.inputs.map (fun vi => vi.name)).Nodup)
    (hout : (b.outputs.map (fun vi => vi.name)).Nodup) :
    ((applyDecls b ops).inputs.map (fun vi => vi.name)).Nodup
    ∧ ((applyDecls b ops).outputs.map (fun vi => vi.name)).Nodup := by
  induction ops generalizing b with
  | nil => exact ⟨hin, hout⟩
  | cons op rest ih =>
    have e : applyDecls b (op :: rest) = applyDecls (applyDecl b op) rest := rfl
    rw [e]
    apply ih
    · cases op with
      | inp nm s d => exact add_input_names_nodup b nm s d hin
      | out nm s d =>
        have : (add_output b nm s d).inputs = b.inputs := add_output_inputs b nm s d
        show ((add_output b nm s d).inputs.map (fun vi => vi.name)).Nodup
        rw [this]
        exact hin
    · cases op with
      | inp nm s d =>
        have : (add_input b nm s d).outputs = b.outputs := add_input_outputs b nm s d
        show ((add_input b nm s d).outputs.map (fun vi => vi.name)).Nodup
        rw [this]
        exact hout
      | out nm s d => exact add_output_names_nodup b nm s d hout

/-- C6 witness: a concrete double declaration of the same input and the
same output leaves each list duplicate-free. -/
theorem declare_input_output_idempotent_witness :
    ((applyDecls emptyBuilder
        [DeclOp.inp "x" none 1, DeclOp.inp "x" none 1,
         DeclOp.out "y" none 1, DeclOp.out "y" none 1]).inputs.map
        (fun vi => vi.name)).Nodup
    ∧ ((applyDecls emptyBuilder
        [DeclOp.inp "x" none 1, DeclOp.inp "x" none 1,
         DeclOp.out "y" none 1, DeclOp.out "y" none 1]).outputs.map
        (fun vi => vi.name)).Nodup :=
  declare_input_output_idempotent emptyBuilder
    [DeclOp.inp "x" none 1, DeclOp.inp "x" none 1,
     DeclOp.out "y" none 1, DeclOp.out "y" none 1]
    (by decide) (by decide)

/-- C7 (amended): when the name is already produced by a node,
`add_input` adds no formal input and does register metadata (through
`add_value_info`); when the name is already a declared input, the call
is a complete no-op — in particular it does *not* ensure metadata. -/
theorem declare_input_noop_cases (b : Builder) (name : String)
    (shape : Option (List BDim)) (dtype : Nat) :
    ((b.nodes.any fun n => n.outputs.contains name) = true →
      (add_input b name shape dtype).inputs = b.inputs
      ∧ (dictLookup (add_input b name shape dtype).valueInfoMetadata name).isSome
          = true)
    ∧ ((b.nodes.any fun n => n.outputs.contains name) = false →
      (b.inputs.any fun vi => vi.name == name) = true →
      add_input b name shape dtype = b) := by
  constructor
  · intro h1
    have e1 : add_input b name shape dtype = add_value_info b name shape dtype := by
      unfold add_input
      rw [if_pos h1]
    rw [e1]
    refine ⟨rfl, ?_⟩
    have e2 : (add_value_info b name shape dtype).valueInfoMetadata
        = dictInsert b.valueInfoMetadata name
            ((dictLookup b.symbolicShapes name).getD (shape.getD []), dtype) := rfl
    rw [e2, dictLookup_insert_self]
    rfl
  · intro h1 h2
    unfold add_input
    rw [if_neg (by rw [h1]; exact Bool.false_ne_true), if_pos h2]

def c7ProducedBuilder : Builder :=
  { emptyBuilder with nodes :=
      [{ name := "n0", opType := "Foo", inputs := [], outputs := ["t"],
         subgraphNodeInputs := [] }] }

def c7DeclaredBuilder : Builder :=
  { emptyBuilder with inputs := [{ name := "x", shape := [], dtype := 1 }] }

/-- C7 witness: both no-op branches exercised on concrete builders. -/
theorem declare_input_noop_cases_witness :
    ((add_input c7ProducedBuilder "t" (some [BDim.int 2]) 1).inputs
        = c7ProducedBuilder.inputs
      ∧ (dictLookup (add_input c7ProducedBuilder "t"
          (some [BDim.int 2]) 1).valueInfoMetadata "t").isSome = true)
    ∧ add_input c7DeclaredBuilder "x" (some [BDim.int 2]) 1 = c7DeclaredBuilder :=
  ⟨(declare_input_noop_cases c7ProducedBuilder "t" (some [BDim.int 2]) 1).1 (by decide),
   (declare_input_noop_cases c7DeclaredBuilder "x" (some [BDim.int 2]) 1).2
     (by decide) (by decide)⟩

/-- C7 (counterexample): declaring the same fresh input twice — the
second call is the already-declared no-op case, yet afterwards the
metadata store still has no entry for the name, contradicting the
claim that metadata exists after either no-op case. -/
theorem declare_input_metadata_missing_cex :
    ((add_input (add_input emptyBuilder "x" (some [BDim.int 2]) 1) "x"
        (some [BDim.int 2]) 1).inputs.map (fun vi => vi.name) = ["x"])
    ∧ dictLookup (add_input (add_input emptyBuilder "x" (some [BDim.int 2]) 1) "x"
        (some [BDim.int 2]) 1).valueInfoMetadata "x" = none :=
  ⟨by decide, by decide⟩

theorem outputsBefore_zero (ns : List Node) : outputsBefore ns 0 = [] := by
  simp [outputsBefore]

theorem outputsBefore_cons_succ (n : Node) (rest : List Node) (j : Nat) :
    outputsBefore (n :: rest) (j + 1) = n.outputs ++ outputsBefore rest j := by
  simp [outputsBefore]

theorem assert_topo_cons (avail : List String) (n : Node) (rest : List Node) :
    (assert_topologically_sorted avail (n :: rest) = none ↔
      (findBadInput avail n = none ∧
       assert_topologically_sorted (avail ++ n.outputs) rest = none)) := by
  cases hfb : findBadInput avail n with
  | some x => simp [assert_topologically_sorted, hfb]
  | none => simp [assert_topologically_sorted, hfb]

theorem findBadInput_none_iff (avail : List String) (n : Node) :
    (findBadInput avail n = none ↔ ∀ inp ∈ n.inputs, inp ≠ "" → inp ∈ avail) := by
  unfold findBadInput
  rw [List.find?_eq_none]
  constructor
  · intro h inp hm hne
    have hb := h inp hm
    by_contra hc
    apply hb
    have h1 : decide (inp ≠ "") = true := by simp [hne]
    have h2 : avail.contains inp = false := by
      rw [Bool.eq_false_iff]
      intro hcont
      exact hc (by simpa [List.contains, List.elem_iff] using hcont)
    rw [h1, h2]
    rfl
  · intro h inp hm hbad
    rw [Bool.and_eq_true] at hbad
    have hne : inp ≠ "" := of_decide_eq_true hbad.1
    have hmem := h inp hm hne
    have hcont : avail.contains inp = true := by
      simpa [List.contains, List.elem_iff] using hmem
    rw [hcont] at hbad
    exact absurd hbad.2 (by simp)

theorem assert_topo_none_iff (ns : List Node) :
    ∀ avail : List String,
    (assert_topologically_sorted avail ns = none ↔
      ∀ i, (h : i < ns.length) → ∀ inp ∈ (ns.get ⟨i, h⟩).inputs, inp ≠ "" →
        inp ∈ avail ++ outputsBefore ns i) := by
  induction ns with
  | nil =>
    intro avail
    constructor
    · intro _ i h
      exact absurd h (Nat.not_lt_zero i)
    · intro _
      rfl
  | cons n rest ih =>
    intro avail
    rw [assert_topo_cons, findBadInput_none_iff, ih (avail ++ n.outputs)]
    constructor
    · rintro ⟨h0, hrest⟩ i h inp hinp hne
      cases i with
      | zero =>
        rw [outputsBefore_zero, List.append_nil]
        exact h0 inp hinp hne
      | succ j =>
        have hj : j < rest.length := Nat.lt_of_succ_lt_succ h
        have hmem := hrest j hj inp hinp hne
        rw [outputsBefore_cons_succ, ← List.append_assoc]
        exact hmem
    · intro hall
      constructor
      · intro inp hinp hne
        have := hall 0 (Nat.succ_pos _) inp hinp hne
        rw [outputsBefore_zero, List.append_nil] at this
        exact this
      · intro j hj inp hinp hne
        have := hall (j + 1) (Nat.succ_lt_succ hj) inp hinp hne
        rw [outputsBefore_cons_succ, ← List.append_assoc] at this
        exact this

theorem find?_congr_pred {α : Type} {p q : α → Bool} (l : List α)
    (h : ∀ x ∈ l, p x = q x) : l.find? p = l.find? q := by
  induction l with
  | nil => rfl
  | cons a as ih =>
    have ha := h a (List.mem_cons_self a as)
    rw [List.find?, List.find?, ha]
    cases q a with
    | true => rfl
    | false => exact ih (fun x hx => h x (List.mem_cons_of_mem _ hx))

theorem contains_congr_of_mem_iff {A B : List String} {x : String}
    (h : x ∈ A ↔ x ∈ B) : A.contains x = B.contains x := by
  rw [Bool.eq_iff_iff]
  simp only [List.contains, List.elem_iff]
  exact h

theorem assert_topo_congr (ns : List Node) :
    ∀ A B : List String,
    (∀ x ∈ ns.flatMap (fun n => n.inputs), (x ∈ A ↔ x ∈ B)) →
    assert_topologically_sorted A ns = assert_topologically_sorted B ns := by
  induction ns with
  | nil =>
    intro A B _
    rfl
  | cons n rest ih =>
    intro A B h
    have hfb : findBadInput A n = findBadInput B n := by
      unfold findBadInput
      apply find?_congr_pred
      intro x hx
      have hx' : x ∈ (n :: rest).flatMap (fun m => m.inputs) := by
        rw [List.mem_flatMap]
        exact ⟨n, List.mem_cons_self n rest, hx⟩
      rw [contains_congr_of_mem_iff (h x hx')]
    rw [assert_topologically_sorted, assert_topologically_sorted, hfb]
    cases findBadInput B n with
    | some x => rfl
    | none =>
      apply ih
      intro x hx
      have hx' : x ∈ (n :: rest).flatMap (fun m => m.inputs) := by
        rw [List.mem_flatMap] at hx ⊢
        obtain ⟨m, hm, hxm⟩ := hx
        exact ⟨m, List.mem_cons_of_mem _ hm, hxm⟩
      have := h x hx'
      simp only [List.mem_append]
      rw [this]

theorem filter_inits_mem_iff (b : Builder) (x : String)
    (hx : x ∈ b.nodes.flatMap (fun n => n.inputs)) :
    (x ∈ (filter_unused_initializers b).initializers.map (fun i => i.name) ↔
     x ∈ b.initializers.map (fun i => i.name)) := by
  simp only [filter_unused_initializers]
  constructor
  · intro hmem
    rw [List.mem_map] at hmem ⊢
    obtain ⟨i, hi, hname⟩ := hmem
    exact ⟨i, (List.mem_filter.mp hi).1, hname⟩
  · intro hmem
    rw [List.mem_map] at hmem ⊢
    obtain ⟨i, hi, hname⟩ := hmem
    refine ⟨i, List.mem_filter.mpr ⟨hi, ?_⟩, hname⟩
    have hxused : x ∈ b.nodes.flatMap (fun n => n.inputs)
        ++ b.functions.flatMap (fun f => f.nodeInputs) :=
      List.mem_append.mpr (Or.inl hx)
    rw [hname]
    simpa [List.contains, List.elem_iff] using hxused

theorem assert_topo_spec_iff (b : Builder) :
    (assert_topologically_sorted
        (b.inputs.map (fun vi => vi.name) ++ b.initializers.map (fun i => i.name))
        b.nodes = none
      ↔ specTopologicallySound (b.inputs.map (fun vi => vi.name))
          (b.initializers.map (fun i => i.name)) b.nodes) := by
  rw [assert_topo_none_iff]
  unfold specTopologicallySound
  constructor
  · intro hh i h inp hm hne
    have := hh i h inp hm hne
    simpa [List.mem_append, or_assoc] using this
  · intro hh i h inp hm hne
    have := hh i h inp hm hne
    simpa [List.mem_append, or_assoc] using this

theorem assert_topo_filtered_eq (b : Builder) :
    assert_topologically_sorted
        ((filter_unused_initializers b).inputs.map (fun vi => vi.name)
          ++ (filter_unused_initializers b).initializers.map (fun i => i.name))
        (filter_unused_initializers b).nodes
      = assert_topologically_sorted
          (b.inputs.map (fun vi => vi.name) ++ b.initializers.map (fun i => i.name))
          b.nodes := by
  have hI : (filter_unused_initializers b).inputs = b.inputs := rfl
  have hN : (filter_unused_initializers b).nodes = b.nodes := rfl
  rw [hI, hN]
  apply assert_topo_congr
  intro x hx
  simp only [List.mem_append]
  have := filter_inits_mem_iff b x hx
  constructor
  · rintro (h | h)
    · exact Or.inl h
    · exact Or.inr (this.mp h)
  · rintro (h | h)
    · exact Or.inl h
    · exact Or.inr (this.mpr h)

/-- C1: every node sequence accepted by `_build_graph` is topologically
sound — walking the stored node list in order, every non-empty input of
every node is a declared input, an initializer, or an earlier node's
output — and whenever that walk property fails, `_build_graph` raises the
not-topologically-sorted error instead of producing a graph. -/
theorem finalize_topologically_sound (b : Builder) (gname : String) :
    ((build_graph b gname).isOk = true →
      specTopologicallySound (b.inputs.map (fun vi => vi.name))
        (b.initializers.map (fun i => i.name)) b.nodes)
    ∧ (¬ specTopologicallySound (b.inputs.map (fun vi => vi.name))
          (b.initializers.map (fun i => i.name)) b.nodes →
      ∃ nodeName opType input, build_graph b gname
        = Except.error (BuildError.notTopologicallySorted nodeName opType input)) := by
  constructor
  · intro hok
    cases hres : assert_topologically_sorted
        ((filter_unused_initializers b).inputs.map (fun vi => vi.name)
          ++ (filter_unused_initializers b).initializers.map (fun i => i.name))
        (filter_unused_initializers b).nodes with
    | some e =>
      have : build_graph b gname
          = Except.error (BuildError.notTopologicallySorted e.nodeName e.opType e.input) := by
        simp only [build_graph, hres]
      rw [this] at hok
      simp [Except.isOk, Except.toBool] at hok
    | none =>
      rw [assert_topo_filtered_eq] at hres
      exact (assert_topo_spec_iff b).mp hres
  · intro hns
    cases hres : assert_topologically_sorted
        ((filter_unused_initializers b).inputs.map (fun vi => vi.name)
          ++ (filter_unused_initializers b).initializers.map (fun i => i.name))
        (filter_unused_initializers b).nodes with
    | some e =>
      refine ⟨e.nodeName, e.opType, e.input, ?_⟩
      simp only [build_graph, hres]
    | none =>
      rw [assert_topo_filtered_eq] at hres
      exact absurd ((assert_topo_spec_iff b).mp hres) hns

def c1WitnessBuilder : Builder :=
  { emptyBuilder with
    inputs := [{ name := "a", shape := [], dtype := 1 }],
    nodes := [{ name := "n1", opType := "Relu", inputs := ["a"], outputs := ["t"],
                subgraphNodeInputs := [] },
              { name := "n2", opType := "Relu", inputs := ["t"], outputs := ["u"],
                subgraphNodeInputs := [] }],
    outputs := [{ name := "u", shape := [], dtype := 1 }],
    valueInfo := [{ name := "t", shape := [], dtype := 1 },
                  { name := "u", shape := [], dtype := 1 }] }

/-- C1 witness: a concrete two-node graph accepted by finalization is
topologically sound. -/
theorem finalize_topologically_sound_witness :
    specTopologicallySound (c1WitnessBuilder.inputs.map (fun vi => vi.name))
      (c1WitnessBuilder.initializers.map (fun i => i.name)) c1WitnessBuilder.nodes :=
  (finalize_topologically_sound c1WitnessBuilder "g").1 (by decide)

/-- C4 (amended): when, after initializer pruning and input filtering,
exactly one node-referenced name lacks value-info, and that name neither
matches the deterministic-flag naming convention nor starts with
`conv_transpose_out`, finalization fails with the missing-metadata error
naming exactly that tensor together with the graph name. -/
theorem finalize_missing_metadata_error (b : Builder) (gname nm : String)
    (h1 : assert_topologically_sorted
        ((filter_unused_initializers b).inputs.map (fun vi => vi.name)
          ++ (filter_unused_initializers b).initializers.map (fun i => i.name))
        (filter_unused_initializers b).nodes = none)
    (h2 : find_missing_value_info
        (filter_redundant_inputs (filter_unused_initializers b)) = [nm])
    (h3 : isDeterministicFlagName nm = false)
    (h4 : strStartsWith nm "conv_transpose_out" = false) :
    build_graph b gname = Except.error (BuildError.missingValueInfo [nm] gname) := by
  have step1 : build_graph b gname
      = build_graph_after_topo (filter_redundant_inputs (filter_unused_initializers b))
          gname := by
    simp only [build_graph]
    rw [h1]
  have step2 : register_deterministic_parameters
      (filter_redundant_inputs (filter_unused_initializers b)) [nm]
      = (filter_redundant_inputs (filter_unused_initializers b), [nm]) := by
    unfold register_deterministic_parameters
    rw [List.foldl_cons, List.foldl_nil]
    rw [if_neg (by rw [h3]; exact Bool.false_ne_true)]
    rfl
  have step2a : (register_deterministic_parameters
      (filter_redundant_inputs (filter_unused_initializers b)) [nm]).1
      = filter_redundant_inputs (filter_unused_initializers b) := by rw [step2]
  have step2b : (register_deterministic_parameters
      (filter_redundant_inputs (filter_unused_initializers b)) [nm]).2 = [nm] := by
    rw [step2]
  have step3 : List.filter (fun m => !strStartsWith m "conv_transpose_out") [nm]
      = [nm] := by
    rw [List.filter_cons]
    rw [if_pos (by rw [h4]; rfl)]
    rfl
  rw [step1]
  simp only [build_graph_after_topo]
  rw [h2, step2b, step3]
  rfl

def c4MissingBuilder : Builder :=
  { emptyBuilder with nodes :=
      [{ name := "n0", opType := "Foo", inputs := [], outputs := ["mystery"],
         subgraphNodeInputs := [] }] }

/-- C4 witness: a single node whose output `mystery` never receives
metadata makes finalization raise `missingValueInfo ["mystery"]`. -/
theorem finalize_missing_metadata_error_witness :
    build_graph c4MissingBuilder "g"
      = Except.error (BuildError.missingValueInfo ["mystery"] "g") :=
  finalize_missing_metadata_error c4MissingBuilder "g" "mystery"
    (by decide) (by decide) (by decide) (by decide)

def c4ConvBuilder : Builder :=
  { emptyBuilder with nodes :=
      [{ name := "n0", opType := "Foo", inputs := [],
         outputs := ["conv_transpose_out_0"], subgraphNodeInputs := [] }] }

/-- C4 (counterexample): a node output named `conv_transpose_out_0` with
no registered metadata (it is the unique missing name) is silently
dropped from the missing list, and finalization *succeeds* — refuting
the claim that finalization never succeeds while a node-referenced name
lacks metadata. -/
theorem finalize_missing_metadata_cex :
    (build_graph c4ConvBuilder "g").isOk = true
    ∧ find_missing_value_info c4ConvBuilder = ["conv_transpose_out_0"] :=
  ⟨by decide, by decide⟩

end OnnxBuilderModel

namespace ScatterUtilsModel

/-- C8: the dimension-equality relation of the scatter legalizer —
two concrete dims are equal iff their integer values are equal, a
symbolic dim is never equal to a concrete one, two symbolic dims are
equal only if they are the same tracked identity, and every shape
comparison (`_are_shapes_equal`) is the pointwise lift of it. -/
theorem dims_equal_characterization :
    (∀ m n : Int, (are_dims_equal (SDim.c m) (SDim.c n) = true ↔ m = n))
    ∧ (∀ n : Int, ∀ i : Nat, are_dims_equal (SDim.c n) (SDim.s i) = false
        ∧ are_dims_equal (SDim.s i) (SDim.c n) = false)
    ∧ (∀ i j : Nat, (are_dims_equal (SDim.s i) (SDim.s j) = true ↔ i = j))
    ∧ (∀ s1 s2 : List SDim, (are_shapes_equal s1 s2 = true ↔
        (s1.length = s2.length ∧ ∀ p ∈ s1.zip s2, are_dims_equal p.1 p.2 = true))) := by
  refine ⟨?_, ?_, ?_, ?_⟩
  · intro m n
    simp [are_dims_equal, is_dim_symbolic]
  · intro n i
    exact ⟨rfl, rfl⟩
  · intro i j
    simp [are_dims_equal, is_dim_symbolic]
  · intro s1 s2
    unfold are_shapes_equal
    by_cases h : s1.length = s2.length
    · rw [if_neg (by simp [h])]
      simp [List.all_eq_true, h]
    · rw [if_pos h]
      simp only [Bool.false_eq_true, false_iff, not_and]
      intro hl
      exact absurd hl h

/-- C8 witness: the three clauses at concrete dimensions. -/
theorem dims_equal_characterization_witness :
    are_dims_equal (SDim.c 3) (SDim.c 3) = true
    ∧ are_dims_equal (SDim.c 1) (SDim.s 0) = false
    ∧ are_dims_equal (SDim.s 0) (SDim.s 0) = true :=
  ⟨(dims_equal_characterization.1 3 3).mpr rfl,
   (dims_equal_characterization.2.1 1 0).1,
   (dims_equal_characterization.2.2.1 0 0).mpr rfl⟩

/-- C9: target indices-shape inference — an empty indices shape maps to
`(1, K)` when `K > 0` and to `(1, 0)` when `K = 0` (with `K` the length
of `scatter_dims_to_operand_dims`), and a rank-1 indices shape whose
single dimension equals `K > 0` maps to `(1, K)`. -/
theorem target_indices_shape_empty_and_rank1 (env : Nat → Option Int) (dn : DimNums) :
    (0 < dn.sdod.length →
      targetIndicesShape env [] dn.sdod.length
        = [SDim.c 1, SDim.c (dn.sdod.length : Int)])
    ∧ (dn.sdod.length = 0 →
      targetIndicesShape env [] dn.sdod.length = [SDim.c 1, SDim.c 0])
    ∧ (∀ d : SDim, are_dims_equal d (SDim.c (dn.sdod.length : Int)) = true →
        0 < dn.sdod.length →
        targetIndicesShape env [d] dn.sdod.length
          = [SDim.c 1, SDim.c (dn.sdod.length : Int)]) := by
  refine ⟨?_, ?_, ?_⟩
  · intro hK
    simp [targetIndicesShape, hK]
  · intro hK
    simp [targetIndicesShape, hK]
  · intro d hd hK
    simp [targetIndicesShape, hd, hK]

def dnK1 : DimNums := { sdod := [0], uwd := [], iwd := [], obd := [] }

/-- C9 witness: the empty-shape and rank-1 branches at `K = 1`. -/
theorem target_indices_shape_witness :
    targetIndicesShape (fun _ => none) [] dnK1.sdod.length
      = [SDim.c 1, SDim.c (dnK1.sdod.length : Int)]
    ∧ targetIndicesShape (fun _ => none) [SDim.c 1] dnK1.sdod.length
      = [SDim.c 1, SDim.c (dnK1.sdod.length : Int)] :=
  ⟨(target_indices_shape_empty_and_rank1 (fun _ => none) dnK1).1 (by decide),
   (target_indices_shape_empty_and_rank1 (fun _ => none) dnK1).2.2 (SDim.c 1)
     (by decide) (by decide)⟩

theorem reshapeTargetList_ok_of_concrete (env : Nat → Option Int)
    (ctx1 ctx2 : String) :
    ∀ (shp : List SDim) (cs : List Int),
    make_shape_concrete_for_prod env shp ctx1 = .ok cs →
    ∀ flag, ∃ tgt, reshapeTargetList env ctx2 shp flag = .ok tgt := by
  intro shp
  induction shp with
  | nil =>
    intro cs _ flag
    exact ⟨[], rfl⟩
  | cons d ds ih =>
    intro cs h flag
    cases d with
    | c n =>
      cases hds : make_shape_concrete_for_prod env ds ctx1 with
      | ok rest =>
        obtain ⟨tgt, htgt⟩ := ih rest hds flag
        exact ⟨n :: tgt, by simp [reshapeTargetList, htgt]⟩
      | error e =>
        rw [make_shape_concrete_for_prod, hds] at h
        exact absurd h (by simp)
    | s i =>
      cases henv : env i with
      | none =>
        rw [make_shape_concrete_for_prod, henv] at h
        exact absurd h (by simp)
      | some v =>
        cases hds : make_shape_concrete_for_prod env ds ctx1 with
        | error e =>
          rw [make_shape_concrete_for_prod, henv, hds] at h
          exact absurd h (by simp)
        | ok rest =>
          cases flag with
          | false =>
            obtain ⟨tgt, htgt⟩ := ih rest hds true
            exact ⟨(-1) :: tgt, by simp [reshapeTargetList, htgt]⟩
          | true =>
            obtain ⟨tgt, htgt⟩ := ih rest hds true
            exact ⟨v :: tgt, by simp [reshapeTargetList, henv, htgt]⟩

/-- C2 (amended): on the default path, when the original and expected
updates shapes differ, element counts decide the outcome — a mismatch
raises the updates-mismatch error carrying both shapes and the dimension
mapping; equal zero counts are accepted with no node emitted; equal
non-zero counts emit a squeeze or a reshape and return normally. -/
theorem default_path_element_count (env : Nat → Option Int)
    (orig expected : List SDim) (dn : DimNums) (co ce : List Int)
    (hne : are_shapes_equal orig expected = false)
    (ho : make_shape_concrete_for_prod env orig "orig_updates_nelem_default" = .ok co)
    (he : make_shape_concrete_for_prod env expected "exp_updates_nelem_default"
      = .ok ce) :
    (elementCount co ≠ elementCount ce →
      reconcileUpdatesDefault env orig expected dn
        = .error (.updatesMismatch orig expected dn.sdod dn.uwd dn.iwd dn.obd))
    ∧ (elementCount co = 0 → elementCount ce = 0 →
      reconcileUpdatesDefault env orig expected dn = .ok .emptyAccepted)
    ∧ (elementCount co = elementCount ce → elementCount co ≠ 0 →
      (∃ ax, reconcileUpdatesDefault env orig expected dn = .ok (.squeezed ax))
      ∨ (∃ tgt, reconcileUpdatesDefault env orig expected dn
          = .ok (.reshaped tgt))) := by
  refine ⟨?_, ?_, ?_⟩
  · intro hcc
    have hz : (elementCount co == 0 && elementCount ce == 0) = false := by
      by_cases h0 : elementCount co = 0
      · by_cases h1 : elementCount ce = 0
        · exact absurd (h0.trans h1.symm) hcc
        · simp [h1]
      · simp [h0]
    have heq : (elementCount co == elementCount ce) = false := by simp [hcc]
    simp only [reconcileUpdatesDefault]
    rw [if_neg (by rw [hne]; exact Bool.false_ne_true)]
    simp only [ho, he]
    rw [if_neg (by rw [hz]; exact Bool.false_ne_true)]
    rw [if_neg (by rw [heq]; exact Bool.false_ne_true)]
  · intro h0 h1
    have hz : (elementCount co == 0 && elementCount ce == 0) = true := by
      simp [h0, h1]
    simp only [reconcileUpdatesDefault]
    rw [if_neg (by rw [hne]; exact Bool.false_ne_true)]
    simp only [ho, he]
    rw [if_pos hz]
  · intro hcc h0
    have hz : (elementCount co == 0 && elementCount ce == 0) = false := by
      simp [h0]
    have heq : (elementCount co == elementCount ce) = true := by simp [hcc]
    cases hsq : findSqueezeAxis orig expected with
    | some ax =>
      left
      refine ⟨ax, ?_⟩
      simp only [reconcileUpdatesDefault]
      rw [if_neg (by rw [hne]; exact Bool.false_ne_true)]
      simp only [ho, he]
      rw [if_neg (by rw [hz]; exact Bool.false_ne_true), if_pos heq, hsq]
    | none =>
      obtain ⟨tgt, htgt⟩ := reshapeTargetList_ok_of_concrete env
        "exp_updates_nelem_default" "reshape_target_updates_dim_def" expected ce he false
      right
      refine ⟨tgt, ?_⟩
      simp only [reconcileUpdatesDefault]
      rw [if_neg (by rw [hne]; exact Bool.false_ne_true)]
      simp only [ho, he]
      rw [if_neg (by rw [hz]; exact Bool.false_ne_true), if_pos heq, hsq]
      simp only [htgt]

/-- C2 witness: a count mismatch (2 vs 3 elements) raises the
updates-mismatch error with both shapes and the dimension mapping. -/
theorem default_path_element_count_witness :
    reconcileUpdatesDefault (fun _ => none) [SDim.c 2] [SDim.c 3]
        { sdod := [0], uwd := [], iwd := [], obd := [] }
      = .error (.updatesMismatch [SDim.c 2] [SDim.c 3] [0] [] [] []) :=
  (default_path_element_count (fun _ => none) [SDim.c 2] [SDim.c 3]
    { sdod := [0], uwd := [], iwd := [], obd := [] } [2] [3]
    (by decide) (by rfl) (by rfl)).1 (by decide)

/-- C2 (counterexample): shapes `(0, 2)` and `(2, 0)` differ and both have
element count zero; the default path returns normally but emits neither a
reshape nor a squeeze (it accepts the original updates as-is), refuting
the claim that equal counts — including both zero — always emit a
reshape or squeeze. -/
theorem default_path_zero_count_no_node_cex :
    are_shapes_equal [SDim.c 0, SDim.c 2] [SDim.c 2, SDim.c 0] = false
    ∧ reconcileUpdatesDefault (fun _ => none) [SDim.c 0, SDim.c 2]
        [SDim.c 2, SDim.c 0] { sdod := [0], uwd := [], iwd := [], obd := [] }
      = .ok .emptyAccepted :=
  ⟨by decide, by rfl⟩

/-- C5 (amended): when the batched-window fast path is structurally
detected but `B` or `L` cannot be made concrete, the legalizer raises the
concretization error — it does not fall through to the default path. -/
theorem fast_path_requires_concrete (env : Nat → Option Int)
    (operandShape indicesShape updatesShape : List SDim) (dn : DimNums)
    (didReshape : Bool) (expected : List SDim) (e : ScatterError)
    (h1 : indicesReshapeStep env indicesShape
        (targetIndicesShape env indicesShape dn.sdod.length) = .ok didReshape)
    (h2 : expectedOnnxUpdatesShape operandShape
        (targetIndicesShape env indicesShape dn.sdod.length) = .ok expected)
    (h3 : detectBatchedWindowFastPath dn operandShape updatesShape indicesShape = true)
    (h4 : fastPathCompute env operandShape updatesShape (dn.sdod.headD 0) = .error e) :
    prepare_scatter_inputs_for_onnx env operandShape indicesShape updatesShape dn
      = .error e := by
  simp only [prepare_scatter_inputs_for_onnx]
  simp only [h1, h2]
  rw [if_pos h3]
  simp only [h4]

/-- C5 witness: pattern detected on a shared symbolic batch dimension that
no environment can resolve; legalization returns the unresolved-dimension
error from the fast path. -/
theorem fast_path_requires_concrete_witness :
    prepare_scatter_inputs_for_onnx (fun _ => none) [SDim.s 0, SDim.c 3] []
        [SDim.s 0, SDim.c 3] { sdod := [1], uwd := [0, 1], iwd := [], obd := [] }
      = .error (.unresolvedDim "d2_op_shape") :=
  fast_path_requires_concrete (fun _ => none) [SDim.s 0, SDim.c 3] []
    [SDim.s 0, SDim.c 3] { sdod := [1], uwd := [0, 1], iwd := [], obd := [] }
    true [SDim.c 1, SDim.c 3] (.unresolvedDim "d2_op_shape")
    (by rfl) (by rfl) (by decide) (by rfl)

/-- C5 (counterexample): an input on which the fast-path pattern is
structurally detected while `B` is symbolic and unresolvable — the
legalizer raises (returns an error) rather than falling through to the
default path and returning three names, refuting the claim as stated. -/
theorem fast_path_nonconcrete_raises_cex :
    detectBatchedWindowFastPath { sdod := [1], uwd := [0, 1], iwd := [], obd := [] }
        [SDim.s 0, SDim.c 3] [SDim.s 0, SDim.c 3] [] = true
    ∧ (prepare_scatter_inputs_for_onnx (fun _ => none) [SDim.s 0, SDim.c 3] []
        [SDim.s 0, SDim.c 3]
        { sdod := [1], uwd := [0, 1], iwd := [], obd := [] }).isOk = false :=
  ⟨by decide, by decide⟩

end ScatterUtilsModel
